import Mathlib

/-
Verification of the Auto-Guardian code-analysis engine
(.github/scripts/code-analyzer.py) against its specification.

The Python source is shallowly embedded below:

* `Severity`, `IssueType`, `CodeIssue`, `ScanResult` mirror the dataclasses
  and enums of the source file.
* Python regular expressions are embedded as values of a small regex type
  `RE` together with an executable derivative-based matcher; `reSearch`
  models `re.search` on a string, `acceptRE` models a fully anchored
  `re.match(r'^...$', s)`, and `searchWB` models `re.search` for the one
  pattern that starts with a word boundary.  Character classes `\w` and
  `\s` are modelled on the ASCII alphabet.
* `scanPython` / `scanJavascript` model `CodeAnalyzer.scan_python` and
  `CodeAnalyzer.scan_javascript`; the outcome of `ast.parse` (Python
  standard library, external to the repository) is passed in as a
  `Option SyntaxErr` per file, and a file whose read raises is modelled
  by `content = none`.
* `runLinters` models `CodeAnalyzer.run_linters`; the outcome of each
  subprocess invocation (including its JSON parse) is passed in as an
  `Except` value whose `error` case models any raised exception.
* `analyze` models `CodeAnalyzer.analyze`, with the run timestamp passed
  in explicitly.
-/

/-- Mirror of the `Severity` enum (code-analyzer.py lines 20-26). -/
inductive Severity where
  | critical
  | high
  | medium
  | low
  | info
deriving DecidableEq, Repr

/-- String tag of a severity, mirroring the enum `.value`. -/
def Severity.val : Severity → String
  | .critical => "critical"
  | .high => "high"
  | .medium => "medium"
  | .low => "low"
  | .info => "info"

/-- Mirror of the `IssueType` enum (code-analyzer.py lines 29-40). -/
inductive IssueType where
  | syntax_error
  | linting_error
  | security_vulnerability
  | code_smell
  | deprecated_usage
  | performance_issue
  | style_violation
  | type_error
  | unused_code
  | import_error
deriving DecidableEq, Repr

/-- String tag of an issue type, mirroring the enum `.value`. -/
def IssueType.val : IssueType → String
  | .syntax_error => "syntax_error"
  | .linting_error => "linting_error"
  | .security_vulnerability => "security_vulnerability"
  | .code_smell => "code_smell"
  | .deprecated_usage => "deprecated_usage"
  | .performance_issue => "performance_issue"
  | .style_violation => "style_violation"
  | .type_error => "type_error"
  | .unused_code => "unused_code"
  | .import_error => "import_error"

/-- Mirror of the `CodeIssue` dataclass (code-analyzer.py lines 43-54).
The column is an `Int` because `str.find` returns `-1` when absent. -/
structure CodeIssue where
  file : String
  line : Nat
  column : Int
  severity : Severity
  issue_type : IssueType
  message : String
  rule_id : Option String := none
  suggestion : Option String := none
  fixable : Bool := false
deriving DecidableEq, Repr

/-- Minimal regular-expression syntax covering exactly the constructs used
by the patterns in code-analyzer.py: character classes (which subsume
literal characters), concatenation, alternation and Kleene star. -/
inductive RE where
  | void
  | eps
  | cls (p : Char → Bool)
  | cat (a b : RE)
  | alt (a b : RE)
  | star (a : RE)

/-- Nullability: does the regex accept the empty string. -/
def RE.nullable : RE → Bool
  | .void => false
  | .eps => true
  | .cls _ => false
  | .cat a b => a.nullable && b.nullable
  | .alt a b => a.nullable || b.nullable
  | .star _ => true

/-- Brzozowski derivative with respect to one character. -/
def RE.deriv : RE → Char → RE
  | .void, _ => .void
  | .eps, _ => .void
  | .cls p, c => if p c then .eps else .void
  | .cat a b, c =>
      if a.nullable then .alt (.cat (a.deriv c) b) (b.deriv c) else .cat (a.deriv c) b
  | .alt a b, c => .alt (a.deriv c) (b.deriv c)
  | .star a, c => .cat (a.deriv c) (.star a)

/-- Whole-string acceptance; models a fully anchored match such as
`re.match(r'^...$', s)`. -/
def acceptRE (r : RE) : List Char → Bool
  | [] => r.nullable
  | c :: s => acceptRE (r.deriv c) s

/-- Does some prefix of `s` match `r`. -/
def matchHere (r : RE) : List Char → Bool
  | [] => r.nullable
  | c :: s => r.nullable || matchHere (r.deriv c) s

/-- Model of `re.search(r, s)`: some substring of `s` matches `r`. -/
def reSearch (r : RE) : List Char → Bool
  | [] => matchHere r []
  | c :: s => matchHere r (c :: s) || reSearch r s

/-- Word character class, Python `\w` restricted to ASCII. -/
def isWordChar (c : Char) : Bool := c.isAlphanum || c == '_'

/-- Whitespace class, Python `\s` restricted to ASCII. -/
def isSpaceChar (c : Char) : Bool :=
  c == ' ' || c == '\t' || c == '\n' || c == '\r' || c == '\x0b' || c == '\x0c'

/-- Model of `re.search` for a pattern of the form `\b⬝r` where `r` starts
with a word character: a match may begin only at the start of the string or
after a non-word character. -/
def searchWB (r : RE) : Option Char → List Char → Bool
  | prev, [] => (match prev with | none => true | some c => !isWordChar c) && matchHere r []
  | prev, c :: s =>
      ((match prev with | none => true | some d => !isWordChar d) && matchHere r (c :: s))
        || searchWB r (some c) s

/-- Single-character regex, via a singleton class. -/
def chr (c : Char) : RE := .cls (fun d => d == c)

/-- Literal string followed by a continuation regex. -/
def litThen : List Char → RE → RE
  | [], r => r
  | c :: cs, r => .cat (chr c) (litThen cs r)

/-- Literal string regex built from a Lean string literal. -/
def strLit (s : String) (r : RE) : RE := litThen s.toList r

/-- Boolean prefix test on character lists. -/
def leadsList : List Char → List Char → Bool
  | [], _ => true
  | _ :: _, [] => false
  | c :: w, d :: s => c == d && leadsList w s

/-- Model of Python `str.find(w)`: index of the first occurrence of `w` in
`s`, or `-1` when `w` does not occur. -/
def findSub (w : List Char) : List Char → Int
  | [] => if leadsList w [] then 0 else -1
  | c :: s =>
      if leadsList w (c :: s) then 0
      else if findSub w s < 0 then -1 else findSub w s + 1

/-- The single-quote character, written by code point to keep the source
free of quote-escape noise. -/
def singleQuote : Char := Char.ofNat 39

/-- Pattern `print\s*\([^)]*\)` (code-analyzer.py line 124). -/
def printRE : RE :=
  strLit "print" (.cat (.star (.cls isSpaceChar))
    (.cat (chr '(') (.cat (.star (.cls (fun c => !(c == ')')))) (chr ')'))))

/-- Pattern `^\s*_+\w*$` (code-analyzer.py line 137), applied fully
anchored to the stripped line. -/
def underscoreRE : RE :=
  .cat (.star (.cls isSpaceChar))
    (.cat (.cat (chr '_') (.star (chr '_'))) (.star (.cls isWordChar)))

/-- Character class `['\"]`: a single or double quote. -/
def quoteCls : RE := .cls (fun c => c == singleQuote || c == '"')

/-- Pattern `os\.environ\[['\"]\w+['\"]\]` (code-analyzer.py line 166). -/
def envAccessRE : RE :=
  strLit "os.environ[" (.cat quoteCls
    (.cat (.cat (.cls isWordChar) (.star (.cls isWordChar))) (.cat quoteCls (chr ']'))))

/-- Pattern `eval\s*\(` (code-analyzer.py line 167). -/
def evalRE : RE := strLit "eval" (.cat (.star (.cls isSpaceChar)) (chr '('))

/-- Pattern `exec\s*\(` (code-analyzer.py line 168). -/
def execRE : RE := strLit "exec" (.cat (.star (.cls isSpaceChar)) (chr '('))

/-- Pattern `pickle\.load` (code-analyzer.py line 169). -/
def pickleRE : RE := strLit "pickle.load" .eps

/-- Pattern `yaml\.load` (code-analyzer.py line 170). -/
def yamlRE : RE := strLit "yaml.load" .eps

/-- Pattern `password\s*=` (code-analyzer.py line 171). -/
def passwordRE : RE := strLit "password" (.cat (.star (.cls isSpaceChar)) (chr '='))

/-- Pattern `secret\s*=` (code-analyzer.py line 172). -/
def secretRE : RE := strLit "secret" (.cat (.star (.cls isSpaceChar)) (chr '='))

/-- Pattern `api[_-]?key\s*=` (code-analyzer.py line 173). -/
def apiKeyRE : RE :=
  strLit "api" (.cat (.alt (.cls (fun c => c == '_' || c == '-')) .eps)
    (strLit "key" (.cat (.star (.cls isSpaceChar)) (chr '='))))

/-- One entry of the `security_patterns` list: pattern, description,
severity and fixable flag (code-analyzer.py lines 165-174). -/
structure SecPat where
  pat : RE
  desc : String
  severity : Severity
  fixable : Bool

/-- The `security_patterns` list (code-analyzer.py lines 165-174). -/
def securityPatterns : List SecPat :=
  [ ⟨envAccessRE, "Direct environment variable access", .high, true⟩,
    ⟨evalRE, "Unsafe eval() usage", .critical, false⟩,
    ⟨execRE, "Unsafe exec() usage", .critical, false⟩,
    ⟨pickleRE, "pickle.load may be unsafe", .medium, true⟩,
    ⟨yamlRE, "yaml.load without SafeLoader", .high, true⟩,
    ⟨passwordRE, "Password in code", .high, false⟩,
    ⟨secretRE, "Secret key in code", .high, false⟩,
    ⟨apiKeyRE, "API key in code", .high, false⟩ ]

/-- Pattern `[^=!]==[^=]` (code-analyzer.py line 207). -/
def looseEqRE : RE :=
  .cat (.cls (fun c => !(c == '=') && !(c == '!')))
    (strLit "==" (.cls (fun c => !(c == '='))))

/-- Body of pattern `\bvar\s+\w+` (code-analyzer.py line 220); the leading
word boundary is handled by `searchWB`. -/
def varBodyRE : RE :=
  strLit "var" (.cat (.cat (.cls isSpaceChar) (.star (.cls isSpaceChar)))
    (.cat (.cls isWordChar) (.star (.cls isWordChar))))

/-- Pattern `console\.(log|debug|info)` (code-analyzer.py line 233). -/
def consoleRE : RE :=
  strLit "console." (.alt (strLit "log" .eps) (.alt (strLit "debug" .eps) (strLit "info" .eps)))

/-- Remove leading whitespace characters. -/
def stripLeading : List Char → List Char
  | [] => []
  | c :: s => if isSpaceChar c then stripLeading s else c :: s

/-- Model of Python `str.strip()`: remove leading and trailing whitespace. -/
def pyStrip (l : List Char) : List Char :=
  stripLeading ((stripLeading l.reverse).reverse)

/-- Model of Python `content.split('\n')` on character lists. -/
def splitLines : List Char → List (List Char)
  | [] => [[]]
  | c :: s =>
      if c == '\n' then [] :: splitLines s
      else
        match splitLines s with
        | [] => [[c]]
        | l :: ls => (c :: l) :: ls

/-- Model of Python `enumerate(lines, n)`. -/
def enumFrom (n : Nat) : List α → List (Nat × α)
  | [] => []
  | x :: xs => (n, x) :: enumFrom (n + 1) xs

/-- Model of Python `x or d` for an optional non-negative integer: `None`
and `0` are falsy and give the default. -/
def pyOr (x : Option Nat) (d : Nat) : Nat :=
  match x with
  | none => d
  | some n => if n = 0 then d else n

/-- The data of a Python `SyntaxError` as used by the scanner: optional
line number, optional column offset, message. -/
structure SyntaxErr where
  lineno : Option Nat
  offset : Option Nat
  msg : String
deriving DecidableEq, Repr

/-- One Python file as seen by `scan_python`.  `content = none` models a
file whose read raises (the outer `except` skips it); `parseErr` models
the outcome of `ast.parse(content)` (Python standard library, external to
the repository): `some e` exactly when parsing raises `SyntaxError e`. -/
structure PyFile where
  name : String
  content : Option String
  parseErr : Option SyntaxErr

/-- Issue emitted by the debug-print rule (code-analyzer.py lines 125-134). -/
def pyPrintIssue (name : String) (n : Nat) (line : List Char) : CodeIssue :=
  { file := name, line := n, column := findSub "print".toList line,
    severity := .low, issue_type := .code_smell,
    message := "print() usage for debugging",
    suggestion := some "Use logger instead of print", fixable := true }

/-- Issue emitted by the unused-variable rule (code-analyzer.py lines 138-146). -/
def pyUnusedIssue (name : String) (n : Nat) : CodeIssue :=
  { file := name, line := n, column := 0, severity := .info,
    issue_type := .unused_code, message := "Unused variable", fixable := true }

/-- Per-line issues of `scan_python` (code-analyzer.py lines 122-146). -/
def pyLineIssues (name : String) (n : Nat) (line : List Char) : List CodeIssue :=
  (if reSearch printRE line then [pyPrintIssue name n line] else [])
    ++ (if acceptRE underscoreRE (pyStrip line) then [pyUnusedIssue name n] else [])

/-- Issue emitted on a parse failure (code-analyzer.py lines 152-162). -/
def syntaxIssue (name : String) (e : SyntaxErr) : CodeIssue :=
  { file := name, line := pyOr e.lineno 1, column := Int.ofNat (pyOr e.offset 0),
    severity := .critical, issue_type := .syntax_error,
    message := "Syntax error: " ++ e.msg,
    suggestion := some "Review syntax on this line", fixable := false }

/-- Model of `CodeAnalyzer._find_line_with_pattern`, enumerating from `n`
(code-analyzer.py lines 250-255). -/
def findLineFrom (r : RE) : Nat → List (List Char) → Nat
  | _, [] => 1
  | n, l :: ls => if reSearch r l then n else findLineFrom r (n + 1) ls

/-- Model of `CodeAnalyzer._find_line_with_pattern` (first matching line,
1-based; fallback 1). -/
def findLineWithPattern (lines : List (List Char)) (r : RE) : Nat :=
  findLineFrom r 1 lines

/-- Whole-file security issue for one pattern entry, when the pattern
matches the full content (code-analyzer.py lines 176-188). -/
def secIssueFor (name : String) (lines : List (List Char)) (content : List Char)
    (p : SecPat) : Option CodeIssue :=
  if reSearch p.pat content then
    some { file := name, line := findLineWithPattern lines p.pat, column := 0,
           severity := p.severity, issue_type := .security_vulnerability,
           message := "Security: " ++ p.desc,
           suggestion := some "Move to .env file", fixable := p.fixable }
  else none

/-- All whole-file security issues of one Python file. -/
def pySecurityIssues (name : String) (lines : List (List Char))
    (content : List Char) : List CodeIssue :=
  securityPatterns.filterMap (secIssueFor name lines content)

/-- Issues of one readable Python file (code-analyzer.py lines 117-188):
per-line rules over `content.split('\n')`, then the syntax check, then the
whole-file security patterns. -/
def scanPyContent (name : String) (content : String)
    (parseErr : Option SyntaxErr) : List CodeIssue :=
  let lines := splitLines content.toList
  ((enumFrom 1 lines).flatMap fun p => pyLineIssues name p.1 p.2)
    ++ (match parseErr with | some e => [syntaxIssue name e] | none => [])
    ++ pySecurityIssues name lines content.toList

/-- Issues of one Python file; an unreadable file contributes nothing. -/
def scanPyFile (f : PyFile) : List CodeIssue :=
  match f.content with
  | none => []
  | some c => scanPyContent f.name c f.parseErr

/-- Model of `CodeAnalyzer.scan_python` over the globbed file list. -/
def scanPython (files : List PyFile) : List CodeIssue :=
  files.flatMap scanPyFile

/-- One JavaScript/TypeScript file as seen by `scan_javascript`;
`content = none` models a read failure. -/
structure JsFile where
  name : String
  content : Option String

/-- Issue emitted by the loose-equality rule (code-analyzer.py lines 207-217). -/
def jsLooseEqIssue (name : String) (n : Nat) (line : List Char) : CodeIssue :=
  { file := name, line := n, column := findSub "==".toList line,
    severity := .medium, issue_type := .code_smell,
    message := "Use === instead of ==",
    suggestion := some "Use === for strict comparison", fixable := true }

/-- Issue emitted by the `var` rule (code-analyzer.py lines 220-230). -/
def jsVarIssue (name : String) (n : Nat) (line : List Char) : CodeIssue :=
  { file := name, line := n, column := findSub "var".toList line,
    severity := .low, issue_type := .deprecated_usage,
    message := "Use let/const instead of var",
    suggestion := some "Use let or const", fixable := true }

/-- Issue emitted by the console-logging rule (code-analyzer.py lines 233-243). -/
def jsConsoleIssue (name : String) (n : Nat) (line : List Char) : CodeIssue :=
  { file := name, line := n, column := findSub "console".toList line,
    severity := .info, issue_type := .code_smell,
    message := "Remaining console.log statement",
    suggestion := some "Remove or use logger", fixable := true }

/-- Per-line issues of `scan_javascript` (code-analyzer.py lines 206-243). -/
def jsLineIssues (name : String) (n : Nat) (line : List Char) : List CodeIssue :=
  (if reSearch looseEqRE line then [jsLooseEqIssue name n line] else [])
    ++ (if searchWB varBodyRE none line then [jsVarIssue name n line] else [])
    ++ (if reSearch consoleRE line then [jsConsoleIssue name n line] else [])

/-- Issues of one JavaScript/TypeScript file. -/
def scanJsFile (f : JsFile) : List CodeIssue :=
  match f.content with
  | none => []
  | some c => (enumFrom 1 (splitLines c.toList)).flatMap fun p => jsLineIssues f.name p.1 p.2

/-- Model of `CodeAnalyzer.scan_javascript` over the globbed file list
(`*.js` files followed by `*.ts` files); note it never touches
`files_scanned`. -/
def scanJavascript (files : List JsFile) : List CodeIssue :=
  files.flatMap scanJsFile

/-- One finding object of the flake8 JSON output, with the fields the
adapter reads (code-analyzer.py lines 271-281).  `kind` models the
`'type'` key. -/
structure Flake8Item where
  filename : String
  line_number : Nat
  column_number : Nat
  kind : String
  text : String
  id : String
deriving DecidableEq, Repr

/-- Completed flake8 subprocess invocation: return code and the parsed
JSON findings (empty stdout parses to `[]`). -/
structure Flake8Run where
  returncode : Int
  items : List Flake8Item
deriving DecidableEq, Repr

/-- Model of `CodeAnalyzer._map_flake8_severity` (code-analyzer.py
lines 313-322): first character of the code, `'W'` when empty. -/
def mapFlake8Severity (code : String) : Severity :=
  match code.toList with
  | [] => .low
  | c :: _ =>
      if c = 'E' then .high
      else if c = 'F' then .critical
      else if c = 'W' then .low
      else .medium

/-- Translation of one flake8 finding (code-analyzer.py lines 272-281). -/
def flake8Translate (item : Flake8Item) : CodeIssue :=
  { file := item.filename, line := item.line_number,
    column := Int.ofNat item.column_number,
    severity := mapFlake8Severity item.kind, issue_type := .linting_error,
    message := item.text, rule_id := some item.id, fixable := true }

/-- The flake8 adapter (code-analyzer.py lines 262-283).  The `error` case
models any raised exception: tool not installed, subprocess failure, or a
JSON parse failure of the tool's output; the adapter then contributes no
issues. -/
def runFlake8Adapter : Except String Flake8Run → List CodeIssue
  | .error _ => []
  | .ok r => if r.returncode ≠ 0 then r.items.map flake8Translate else []

/-- One message object of the eslint JSON output (code-analyzer.py
lines 297-307).  `fix` is `some` exactly when the finding carries a
non-null auto-fix payload. -/
structure ESLintMsg where
  line : Nat
  column : Nat
  severity : Int
  message : String
  ruleId : Option String
  fix : Option String
deriving DecidableEq, Repr

/-- One per-file result object of the eslint JSON output. -/
structure ESLintFileResult where
  filePath : String
  messages : List ESLintMsg
deriving DecidableEq, Repr

/-- Completed eslint subprocess invocation. -/
structure ESLintRun where
  returncode : Int
  files : List ESLintFileResult
deriving DecidableEq, Repr

/-- Model of `CodeAnalyzer._map_eslint_severity` (code-analyzer.py
lines 324-330). -/
def mapESLintSeverity (s : Int) : Severity :=
  if s = 2 then .high else if s = 1 then .medium else .low

/-- Translation of one eslint message (code-analyzer.py lines 298-307). -/
def eslintTranslate (fp : String) (m : ESLintMsg) : CodeIssue :=
  { file := fp, line := m.line, column := Int.ofNat m.column,
    severity := mapESLintSeverity m.severity, issue_type := .linting_error,
    message := m.message, rule_id := m.ruleId, fixable := m.fix.isSome }

/-- The eslint adapter (code-analyzer.py lines 286-309); the `error` case
models any raised exception, including the 60-second timeout. -/
def runESLintAdapter : Except String ESLintRun → List CodeIssue
  | .error _ => []
  | .ok r =>
      if r.returncode ≠ 0 then
        r.files.flatMap fun f => f.messages.map (eslintTranslate f.filePath)
      else []

/-- Model of `CodeAnalyzer.run_linters` (code-analyzer.py lines 257-311):
flake8 findings followed by eslint findings. -/
def runLinters (fl : Except String Flake8Run) (el : Except String ESLintRun) :
    List CodeIssue :=
  runFlake8Adapter fl ++ runESLintAdapter el

/-- Mirror of the `ScanResult` dataclass (code-analyzer.py lines 71-81). -/
structure ScanResult where
  timestamp : String
  files_scanned : Nat
  issues_found : Nat
  issues_by_severity : List (String × Nat)
  issues_by_type : List (String × Nat)
  critical_issues : List CodeIssue
  auto_fixable_issues : List CodeIssue
  issues : List CodeIssue
deriving DecidableEq, Repr

/-- Model of `d[k] = d.get(k, 0) + 1` on a Python dict, represented as an
insertion-ordered association list. -/
def dictIncr (k : String) : List (String × Nat) → List (String × Nat)
  | [] => [(k, 1)]
  | (k', v) :: rest => if k' = k then (k, v + 1) :: rest else (k', v) :: dictIncr k rest

/-- Sum of the values of a dict. -/
def dictSum (d : List (String × Nat)) : Nat := (d.map Prod.snd).sum

/-- One step of the categorization loop of `CodeAnalyzer.analyze`
(code-analyzer.py lines 346-363). -/
def categorize (r : ScanResult) (i : CodeIssue) : ScanResult :=
  { r with
    issues_by_severity := dictIncr i.severity.val r.issues_by_severity,
    issues_by_type := dictIncr i.issue_type.val r.issues_by_type,
    critical_issues :=
      r.critical_issues ++ (if i.severity = .critical then [i] else []),
    auto_fixable_issues :=
      r.auto_fixable_issues ++ (if i.fixable then [i] else []) }

/-- The file tree as seen through the two globs: `*.py` files, then the
`*.js`/`*.ts` files. -/
structure FileTree where
  pyFiles : List PyFile
  jsFiles : List JsFile

/-- Model of `CodeAnalyzer.analyze` (code-analyzer.py lines 332-371):
pattern-detector issues in dialect order, then linter issues; summary
fields built by the categorization loop.  Only `scan_python` increments
`files_scanned` (line 115); `scan_javascript` never does. -/
def analyze (timestamp : String) (tree : FileTree)
    (fl : Except String Flake8Run) (el : Except String ESLintRun) : ScanResult :=
  let pythonIssues := scanPython tree.pyFiles
  let jsIssues := scanJavascript tree.jsFiles
  let linterIssues := runLinters fl el
  let issues := pythonIssues ++ jsIssues ++ linterIssues
  let base : ScanResult :=
    { timestamp := timestamp, files_scanned := tree.pyFiles.length,
      issues_found := issues.length, issues_by_severity := [],
      issues_by_type := [], critical_issues := [], auto_fixable_issues := [],
      issues := issues }
  issues.foldl categorize base

/-- `critical_count` of the serialized summary (code-analyzer.py line 92). -/
def criticalCount (r : ScanResult) : Nat := r.critical_issues.length

/-- `auto_fixable_count` of the serialized summary (code-analyzer.py line 93). -/
def autoFixableCount (r : ScanResult) : Nat := r.auto_fixable_issues.length

theorem acceptRE_nil (r : RE) : acceptRE r [] = r.nullable := rfl

theorem acceptRE_cons (r : RE) (c : Char) (s : List Char) :
    acceptRE r (c :: s) = acceptRE (r.deriv c) s := rfl

theorem matchHere_cons (r : RE) (c : Char) (s : List Char) :
    matchHere r (c :: s) = (r.nullable || matchHere (r.deriv c) s) := rfl

theorem reSearch_cons (r : RE) (c : Char) (s : List Char) :
    reSearch r (c :: s) = (matchHere r (c :: s) || reSearch r s) := rfl

theorem bool_eq_of_iff {a b : Bool} (h : a = true ↔ b = true) : a = b := by
  cases a <;> cases b <;> simp_all

theorem accept_void (s : List Char) : acceptRE RE.void s = false := by
  induction s with
  | nil => rfl
  | cons c s ih => simpa [acceptRE, RE.deriv] using ih

theorem accept_eps (s : List Char) : acceptRE RE.eps s = true ↔ s = [] := by
  cases s with
  | nil => simp [acceptRE, RE.nullable]
  | cons c s => simp [acceptRE, RE.deriv, accept_void]

theorem accept_cls (p : Char → Bool) (s : List Char) :
    acceptRE (RE.cls p) s = true ↔ ∃ c, s = [c] ∧ p c = true := by
  cases s with
  | nil => simp [acceptRE, RE.nullable]
  | cons c s =>
    cases hp : p c with
    | true =>
      simp only [acceptRE, RE.deriv, hp, if_true, accept_eps, List.cons.injEq]
      exact ⟨fun h => ⟨c, ⟨rfl, h⟩, hp⟩, fun ⟨d, ⟨_, h⟩, _⟩ => h⟩
    | false => simp [acceptRE, RE.deriv, hp, accept_void, List.cons.injEq]

theorem accept_alt (a b : RE) (s : List Char) :
    acceptRE (RE.alt a b) s = (acceptRE a s || acceptRE b s) := by
  induction s generalizing a b with
  | nil => rfl
  | cons c s ih => simpa [acceptRE, RE.deriv] using ih (a.deriv c) (b.deriv c)

theorem accept_cat (a b : RE) (s : List Char) :
    acceptRE (RE.cat a b) s = true ↔
      ∃ u v, s = u ++ v ∧ acceptRE a u = true ∧ acceptRE b v = true := by
  induction s generalizing a b with
  | nil =>
    simp only [acceptRE_nil, RE.nullable, Bool.and_eq_true]
    constructor
    · rintro ⟨h1, h2⟩; exact ⟨[], [], rfl, h1, h2⟩
    · rintro ⟨u, v, huv, h1, h2⟩
      obtain ⟨rfl, rfl⟩ := List.append_eq_nil.mp huv.symm
      exact ⟨h1, h2⟩
  | cons c s ih =>
    rw [acceptRE_cons]
    by_cases ha : a.nullable = true
    · rw [show (RE.cat a b).deriv c = RE.alt (RE.cat (a.deriv c) b) (b.deriv c) from by
        simp [RE.deriv, ha]]
      rw [accept_alt, Bool.or_eq_true, ih]
      constructor
      · rintro (⟨u, v, rfl, h1, h2⟩ | h)
        · exact ⟨c :: u, v, rfl, h1, h2⟩
        · exact ⟨[], c :: s, rfl, by simpa [acceptRE_nil] using ha, h⟩
      · rintro ⟨u, v, huv, h1, h2⟩
        cases u with
        | nil =>
          right
          simp only [List.nil_append] at huv
          subst huv
          exact h2
        | cons d u =>
          left
          simp only [List.cons_append, List.cons.injEq] at huv
          obtain ⟨rfl, hs⟩ := huv
          rw [acceptRE_cons] at h1
          exact ⟨u, v, hs, h1, h2⟩
    · rw [show (RE.cat a b).deriv c = RE.cat (a.deriv c) b from by simp [RE.deriv, ha]]
      rw [ih]
      constructor
      · rintro ⟨u, v, rfl, h1, h2⟩; exact ⟨c :: u, v, rfl, h1, h2⟩
      · rintro ⟨u, v, huv, h1, h2⟩
        cases u with
        | nil => exact absurd (by simpa [acceptRE_nil] using h1) ha
        | cons d u =>
          simp only [List.cons_append, List.cons.injEq] at huv
          obtain ⟨rfl, hs⟩ := huv
          rw [acceptRE_cons] at h1
          exact ⟨u, v, hs, h1, h2⟩

theorem accept_cat_eps_left (x : RE) (s : List Char) :
    acceptRE (RE.cat RE.eps x) s = acceptRE x s := by
  refine bool_eq_of_iff ?_
  rw [accept_cat]
  constructor
  · rintro ⟨u, v, rfl, h1, h2⟩
    obtain rfl := (accept_eps u).mp h1
    simpa using h2
  · intro h
    exact ⟨[], s, rfl, by simp [acceptRE_nil, RE.nullable], h⟩

theorem accept_cat_void_left (x : RE) (s : List Char) :
    acceptRE (RE.cat RE.void x) s = false := by
  refine bool_eq_of_iff ?_
  rw [accept_cat]
  simp only [Bool.false_eq_true, iff_false]
  rintro ⟨u, v, rfl, h1, h2⟩
  simp [accept_void] at h1

theorem accept_star_cls (p : Char → Bool) (s : List Char) :
    acceptRE (RE.star (RE.cls p)) s = s.all p := by
  induction s with
  | nil => rfl
  | cons c s ih =>
    rw [acceptRE_cons]
    cases hp : p c with
    | true =>
      rw [show (RE.star (RE.cls p)).deriv c = RE.cat RE.eps (RE.star (RE.cls p)) from by
        simp [RE.deriv, hp]]
      rw [accept_cat_eps_left, ih]
      simp [hp]
    | false =>
      rw [show (RE.star (RE.cls p)).deriv c = RE.cat RE.void (RE.star (RE.cls p)) from by
        simp [RE.deriv, hp]]
      rw [accept_cat_void_left]
      simp [hp]

theorem matchHere_iff (r : RE) (s : List Char) :
    matchHere r s = true ↔ ∃ u v, s = u ++ v ∧ acceptRE r u = true := by
  induction s generalizing r with
  | nil =>
    simp only [matchHere]
    constructor
    · intro h; exact ⟨[], [], rfl, h⟩
    · rintro ⟨u, v, huv, h⟩
      obtain ⟨rfl, rfl⟩ := List.append_eq_nil.mp huv.symm
      exact h
  | cons c s ih =>
    rw [matchHere_cons, Bool.or_eq_true, ih]
    constructor
    · rintro (h | ⟨u, v, rfl, h⟩)
      · exact ⟨[], c :: s, rfl, h⟩
      · exact ⟨c :: u, v, rfl, h⟩
    · rintro ⟨u, v, huv, h⟩
      cases u with
      | nil =>
        left
        simpa [acceptRE_nil] using h
      | cons d u =>
        right
        simp only [List.cons_append, List.cons.injEq] at huv
        obtain ⟨rfl, hs⟩ := huv
        rw [acceptRE_cons] at h
        exact ⟨u, v, hs, h⟩

theorem reSearch_iff (r : RE) (s : List Char) :
    reSearch r s = true ↔ ∃ a t, s = a ++ t ∧ matchHere r t = true := by
  induction s with
  | nil =>
    simp only [reSearch]
    constructor
    · intro h; exact ⟨[], [], rfl, h⟩
    · rintro ⟨a, t, hat, h⟩
      obtain ⟨rfl, rfl⟩ := List.append_eq_nil.mp hat.symm
      exact h
  | cons c s ih =>
    rw [reSearch_cons, Bool.or_eq_true, ih]
    constructor
    · rintro (h | ⟨a, t, rfl, h⟩)
      · exact ⟨[], c :: s, rfl, h⟩
      · exact ⟨c :: a, t, rfl, h⟩
    · rintro ⟨a, t, hat, h⟩
      cases a with
      | nil =>
        left
        simp only [List.nil_append] at hat
        subst hat
        exact h
      | cons d a =>
        right
        simp only [List.cons_append, List.cons.injEq] at hat
        obtain ⟨rfl, hs⟩ := hat
        exact ⟨a, t, hs, h⟩

theorem searchWB_exists (r : RE) (prev : Option Char) (s : List Char)
    (h : searchWB r prev s = true) : ∃ a t, s = a ++ t ∧ matchHere r t = true := by
  induction s generalizing prev with
  | nil =>
    simp only [searchWB, Bool.and_eq_true] at h
    exact ⟨[], [], rfl, h.2⟩
  | cons c s ih =>
    simp only [searchWB, Bool.or_eq_true, Bool.and_eq_true] at h
    rcases h with ⟨-, h⟩ | h
    · exact ⟨[], c :: s, rfl, h⟩
    · obtain ⟨a, t, rfl, hm⟩ := ih (some c) h
      exact ⟨c :: a, t, rfl, hm⟩

theorem accept_litThen (w : List Char) (r : RE) (s : List Char) :
    acceptRE (litThen w r) s = true ↔ ∃ v, s = w ++ v ∧ acceptRE r v = true := by
  induction w generalizing s with
  | nil => simp [litThen]
  | cons c w ih =>
    simp only [litThen, chr]
    rw [accept_cat]
    constructor
    · rintro ⟨u, v, rfl, h1, h2⟩
      obtain ⟨d, rfl, hd⟩ := (accept_cls _ _).mp h1
      obtain rfl : d = c := by simpa using hd
      obtain ⟨v', rfl, h3⟩ := (ih v).mp h2
      exact ⟨v', by simp, h3⟩
    · rintro ⟨v, rfl, h⟩
      refine ⟨[c], w ++ v, by simp, ?_, (ih _).mpr ⟨v, rfl, h⟩⟩
      rw [accept_cls]
      exact ⟨c, rfl, by simp⟩

theorem search_litThen_occurs (w : List Char) (r : RE) (s : List Char)
    (h : reSearch (litThen w r) s = true) : ∃ a t, s = a ++ w ++ t := by
  obtain ⟨a, t, rfl, hm⟩ := (reSearch_iff _ _).mp h
  obtain ⟨u, v, rfl, hu⟩ := (matchHere_iff _ _).mp hm
  obtain ⟨v', rfl, -⟩ := (accept_litThen _ _ _).mp hu
  exact ⟨a, v' ++ v, by simp⟩

theorem search_cls_litThen_occurs (p : Char → Bool) (w : List Char) (r : RE) (s : List Char)
    (h : reSearch (RE.cat (RE.cls p) (litThen w r)) s = true) : ∃ a t, s = a ++ w ++ t := by
  obtain ⟨a, t, rfl, hm⟩ := (reSearch_iff _ _).mp h
  obtain ⟨u, v, rfl, hu⟩ := (matchHere_iff _ _).mp hm
  obtain ⟨u1, u2, rfl, h1, h2⟩ := (accept_cat _ _ _).mp hu
  obtain ⟨d, rfl, -⟩ := (accept_cls _ _).mp h1
  obtain ⟨v', rfl, -⟩ := (accept_litThen _ _ _).mp h2
  exact ⟨a ++ [d], v' ++ v, by simp⟩

theorem searchWB_litThen_occurs (w : List Char) (r : RE) (prev : Option Char) (s : List Char)
    (h : searchWB (litThen w r) prev s = true) : ∃ a t, s = a ++ w ++ t := by
  obtain ⟨a, t, rfl, hm⟩ := searchWB_exists _ _ _ h
  obtain ⟨u, v, rfl, hu⟩ := (matchHere_iff _ _).mp hm
  obtain ⟨v', rfl, -⟩ := (accept_litThen _ _ _).mp hu
  exact ⟨a, v' ++ v, by simp⟩

theorem leadsList_append (w t : List Char) : leadsList w (w ++ t) = true := by
  induction w with
  | nil => rfl
  | cons c w ih => simpa [leadsList] using ih

theorem findSub_eq_zero_of_leads (w s : List Char) (h : leadsList w s = true) :
    findSub w s = 0 := by
  cases s with
  | nil => simp [findSub, h]
  | cons c s => simp [findSub, h]

theorem findSub_nonneg (w : List Char) (a t : List Char) :
    0 ≤ findSub w (a ++ w ++ t) := by
  induction a with
  | nil =>
    simp only [List.nil_append]
    rw [findSub_eq_zero_of_leads w _ (leadsList_append w t)]
  | cons c a ih =>
    simp only [List.cons_append]
    by_cases hp : leadsList w (c :: (a ++ w ++ t)) = true
    · rw [show findSub w (c :: (a ++ w ++ t)) = 0 from findSub_eq_zero_of_leads _ _ hp]
    · rw [show findSub w (c :: (a ++ w ++ t))
          = if leadsList w (c :: (a ++ w ++ t)) then 0
            else if findSub w (a ++ w ++ t) < 0 then -1
            else findSub w (a ++ w ++ t) + 1 from rfl]
      rw [if_neg hp, if_neg (by omega)]
      omega

theorem occurs_findSub_nonneg (w s : List Char) (h : ∃ a t, s = a ++ w ++ t) :
    0 ≤ findSub w s := by
  obtain ⟨a, t, rfl⟩ := h
  exact findSub_nonneg w a t

theorem foldl_categorize_issues (l : List CodeIssue) (r : ScanResult) :
    (l.foldl categorize r).issues = r.issues := by
  induction l generalizing r with
  | nil => rfl
  | cons i l ih =>
    rw [List.foldl_cons, ih]
    rfl

theorem foldl_categorize_issues_found (l : List CodeIssue) (r : ScanResult) :
    (l.foldl categorize r).issues_found = r.issues_found := by
  induction l generalizing r with
  | nil => rfl
  | cons i l ih =>
    rw [List.foldl_cons, ih]
    rfl

theorem foldl_categorize_files_scanned (l : List CodeIssue) (r : ScanResult) :
    (l.foldl categorize r).files_scanned = r.files_scanned := by
  induction l generalizing r with
  | nil => rfl
  | cons i l ih =>
    rw [List.foldl_cons, ih]
    rfl

theorem foldl_categorize_timestamp (l : List CodeIssue) (r : ScanResult) :
    (l.foldl categorize r).timestamp = r.timestamp := by
  induction l generalizing r with
  | nil => rfl
  | cons i l ih =>
    rw [List.foldl_cons, ih]
    rfl

theorem dictSum_dictIncr (k : String) (d : List (String × Nat)) :
    dictSum (dictIncr k d) = dictSum d + 1 := by
  induction d with
  | nil => rfl
  | cons kv d ih =>
    obtain ⟨k', v⟩ := kv
    by_cases h : k' = k
    · simp [dictIncr, h, dictSum]
      omega
    · simp only [dictIncr, if_neg h]
      simp only [dictSum, List.map_cons, List.sum_cons] at *
      omega

theorem foldl_categorize_sev_sum (l : List CodeIssue) (r : ScanResult) :
    dictSum (l.foldl categorize r).issues_by_severity
      = dictSum r.issues_by_severity + l.length := by
  induction l generalizing r with
  | nil => simp
  | cons i l ih =>
    rw [List.foldl_cons, ih]
    simp only [categorize, dictSum_dictIncr, List.length_cons]
    omega

theorem foldl_categorize_type_sum (l : List CodeIssue) (r : ScanResult) :
    dictSum (l.foldl categorize r).issues_by_type
      = dictSum r.issues_by_type + l.length := by
  induction l generalizing r with
  | nil => simp
  | cons i l ih =>
    rw [List.foldl_cons, ih]
    simp only [categorize, dictSum_dictIncr, List.length_cons]
    omega

theorem foldl_categorize_critical (l : List CodeIssue) (r : ScanResult) :
    (l.foldl categorize r).critical_issues
      = r.critical_issues ++ l.filter (fun i => decide (i.severity = Severity.critical)) := by
  induction l generalizing r with
  | nil => simp
  | cons i l ih =>
    rw [List.foldl_cons, ih]
    by_cases h : i.severity = Severity.critical
    · simp [categorize, h, List.filter_cons]
    · simp [categorize, h, List.filter_cons]

theorem foldl_categorize_fixable (l : List CodeIssue) (r : ScanResult) :
    (l.foldl categorize r).auto_fixable_issues
      = r.auto_fixable_issues ++ l.filter (fun i => i.fixable) := by
  induction l generalizing r with
  | nil => simp
  | cons i l ih =>
    rw [List.foldl_cons, ih]
    by_cases h : i.fixable = true
    · simp [categorize, h, List.filter_cons]
    · simp [categorize, h, List.filter_cons]

theorem analyze_issues (t : String) (tree : FileTree)
    (fl : Except String Flake8Run) (el : Except String ESLintRun) :
    (analyze t tree fl el).issues
      = scanPython tree.pyFiles ++ scanJavascript tree.jsFiles ++ runLinters fl el := by
  simp only [analyze]
  rw [foldl_categorize_issues]

theorem analyze_issues_found (t : String) (tree : FileTree)
    (fl : Except String Flake8Run) (el : Except String ESLintRun) :
    (analyze t tree fl el).issues_found
      = (scanPython tree.pyFiles ++ scanJavascript tree.jsFiles ++ runLinters fl el).length := by
  simp only [analyze]
  rw [foldl_categorize_issues_found]

theorem analyze_files_scanned (t : String) (tree : FileTree)
    (fl : Except String Flake8Run) (el : Except String ESLintRun) :
    (analyze t tree fl el).files_scanned = tree.pyFiles.length := by
  simp only [analyze]
  rw [foldl_categorize_files_scanned]

/-- C1: for every run, the summary's `total_issues` equals the length of
`all_issues`, and the `by_severity` and `by_type` count values each sum to
`total_issues`. -/
theorem summary_totals_consistent (t : String) (tree : FileTree)
    (fl : Except String Flake8Run) (el : Except String ESLintRun) :
    (analyze t tree fl el).issues_found = (analyze t tree fl el).issues.length
    ∧ dictSum (analyze t tree fl el).issues_by_severity = (analyze t tree fl el).issues_found
    ∧ dictSum (analyze t tree fl el).issues_by_type = (analyze t tree fl el).issues_found := by
  refine ⟨?_, ?_, ?_⟩
  · rw [analyze_issues, analyze_issues_found]
  · rw [analyze_issues_found]
    simp only [analyze]
    rw [foldl_categorize_sev_sum]
    simp [dictSum]
  · rw [analyze_issues_found]
    simp only [analyze]
    rw [foldl_categorize_type_sum]
    simp [dictSum]

/-- File tree with no Python file and one JavaScript file. -/
def c2Tree : FileTree := ⟨[], [⟨"app.js", some "var x = 1"⟩]⟩

/-- C2 counterexample: on a tree whose globs match zero `*.py` files and one
`*.js` file, the claim demands `files_scanned = 0 + 1 = 1`, but the code
reports `0` because `scan_javascript` never increments `files_scanned`. -/
theorem files_scanned_counterexample :
    (analyze "t0" c2Tree (.error "no flake8") (.error "no eslint")).files_scanned = 0
    ∧ c2Tree.pyFiles.length + c2Tree.jsFiles.length = 1 := by
  constructor
  · rw [analyze_files_scanned]
    rfl
  · rfl

/-- C2 amended: `files_scanned` equals the number of files matched by the
Python glob alone; the JavaScript/TypeScript detector pass contributes
nothing to it. -/
theorem files_scanned_python_only (t : String) (tree : FileTree)
    (fl : Except String Flake8Run) (el : Except String ESLintRun) :
    (analyze t tree fl el).files_scanned = tree.pyFiles.length :=
  analyze_files_scanned t tree fl el

/-- C3: `critical_issues` is the emission-ordered subsequence of critical
issues and `auto_fixable_issues` the emission-ordered subsequence of fixable
issues; the serialized counts are their lengths; an issue that is both
critical and fixable appears in both subsets. -/
theorem critical_and_fixable_partitions (t : String) (tree : FileTree)
    (fl : Except String Flake8Run) (el : Except String ESLintRun) :
    (analyze t tree fl el).critical_issues
      = (analyze t tree fl el).issues.filter (fun i => decide (i.severity = Severity.critical))
    ∧ criticalCount (analyze t tree fl el)
      = ((analyze t tree fl el).issues.filter (fun i => decide (i.severity = Severity.critical))).length
    ∧ (analyze t tree fl el).auto_fixable_issues
      = (analyze t tree fl el).issues.filter (fun i => i.fixable)
    ∧ autoFixableCount (analyze t tree fl el)
      = ((analyze t tree fl el).issues.filter (fun i => i.fixable)).length
    ∧ ∀ i ∈ (analyze t tree fl el).issues,
        i.severity = Severity.critical → i.fixable = true →
        i ∈ (analyze t tree fl el).critical_issues
          ∧ i ∈ (analyze t tree fl el).auto_fixable_issues := by
  have hc : (analyze t tree fl el).critical_issues
      = (analyze t tree fl el).issues.filter (fun i => decide (i.severity = Severity.critical)) := by
    rw [analyze_issues]
    simp only [analyze]
    rw [foldl_categorize_critical]
    simp
  have hf : (analyze t tree fl el).auto_fixable_issues
      = (analyze t tree fl el).issues.filter (fun i => i.fixable) := by
    rw [analyze_issues]
    simp only [analyze]
    rw [foldl_categorize_fixable]
    simp
  refine ⟨hc, ?_, hf, ?_, ?_⟩
  · simp only [criticalCount, hc]
  · simp only [autoFixableCount, hf]
  · intro i hi hsev hfix
    constructor
    · rw [hc, List.mem_filter]
      exact ⟨hi, by simp [hsev]⟩
    · rw [hf, List.mem_filter]
      exact ⟨hi, hfix⟩

/-- A flake8 finding whose code starts with `F`: the adapter maps it to a
critical, fixable linting issue. -/
def c3Item : Flake8Item := ⟨"m.py", 3, 1, "F401", "unused import", "F401"⟩

/-- Witness for C3 at a concrete run containing an issue that is both
critical and fixable: it appears in both subsets. -/
theorem critical_and_fixable_partitions_witness :
    flake8Translate c3Item
        ∈ (analyze "t0" ⟨[], []⟩ (.ok ⟨1, [c3Item]⟩) (.error "no eslint")).critical_issues
    ∧ flake8Translate c3Item
        ∈ (analyze "t0" ⟨[], []⟩ (.ok ⟨1, [c3Item]⟩) (.error "no eslint")).auto_fixable_issues := by
  refine (critical_and_fixable_partitions "t0" ⟨[], []⟩ (.ok ⟨1, [c3Item]⟩)
    (.error "no eslint")).2.2.2.2 (flake8Translate c3Item) ?_ (by decide) (by decide)
  rw [analyze_issues]
  decide

/-- C8: an adapter whose invocation raises (tool missing, subprocess error,
timeout, unparseable output) contributes zero issues, independently per
adapter; the run still returns a `ScanResult`, and with both linters failing
its issues are exactly the pattern-detector findings. -/
theorem linter_failure_contributes_nothing (t : String) (tree : FileTree) (m1 m2 : String) :
    runFlake8Adapter (.error m1) = []
    ∧ runESLintAdapter (.error m2) = []
    ∧ (∀ el, runLinters (.error m1) el = runESLintAdapter el)
    ∧ (∀ fl, runLinters fl (.error m2) = runFlake8Adapter fl)
    ∧ (analyze t tree (.error m1) (.error m2)).issues
        = scanPython tree.pyFiles ++ scanJavascript tree.jsFiles := by
  refine ⟨rfl, rfl, fun el => rfl, fun fl => ?_, ?_⟩
  · simp [runLinters, runESLintAdapter]
  · rw [analyze_issues]
    simp [runLinters, runFlake8Adapter, runESLintAdapter]

theorem foldl_categorize_set_timestamp (l : List CodeIssue) (r : ScanResult) (t : String) :
    l.foldl categorize { r with timestamp := t } = { l.foldl categorize r with timestamp := t } := by
  induction l generalizing r with
  | nil => rfl
  | cons i l ih =>
    rw [List.foldl_cons, List.foldl_cons]
    rw [show categorize { r with timestamp := t } i = { categorize r i with timestamp := t } from rfl]
    exact ih _

theorem analyze_set_timestamp (t1 t2 : String) (tree : FileTree)
    (fl : Except String Flake8Run) (el : Except String ESLintRun) :
    analyze t1 tree fl el = { analyze t2 tree fl el with timestamp := t1 } :=
  foldl_categorize_set_timestamp
    (scanPython tree.pyFiles ++ scanJavascript tree.jsFiles ++ runLinters fl el)
    { timestamp := t2, files_scanned := tree.pyFiles.length,
      issues_found := (scanPython tree.pyFiles ++ scanJavascript tree.jsFiles
        ++ runLinters fl el).length,
      issues_by_severity := [], issues_by_type := [], critical_issues := [],
      auto_fixable_issues := [],
      issues := scanPython tree.pyFiles ++ scanJavascript tree.jsFiles ++ runLinters fl el }
    t1

/-- C9: with no installed external linters, two runs on an unchanged tree
differ at most in the timestamp; in particular the `all_issues` sequences
are identical, every field of every issue equal and in the same order. -/
theorem rerun_deterministic (t1 t2 : String) (tree : FileTree) (m1 m2 : String) :
    analyze t1 tree (.error m1) (.error m2)
      = { analyze t2 tree (.error m1) (.error m2) with timestamp := t1 }
    ∧ (analyze t1 tree (.error m1) (.error m2)).issues
      = (analyze t2 tree (.error m1) (.error m2)).issues := by
  refine ⟨analyze_set_timestamp t1 t2 tree _ _, ?_⟩
  rw [analyze_issues, analyze_issues]

theorem pyLineIssues_filter_synIssue (name : String) (n : Nat) (line : List Char) :
    (pyLineIssues name n line).filter
      (fun i => decide (i.issue_type = IssueType.syntax_error)) = [] := by
  unfold pyLineIssues
  by_cases h1 : reSearch printRE line = true <;>
    by_cases h2 : acceptRE underscoreRE (pyStrip line) = true <;>
      simp [h1, h2, pyPrintIssue, pyUnusedIssue, List.filter_cons]

theorem pyLineBlock_filter_synIssue (name : String) (l : List (Nat × List Char)) :
    (l.flatMap fun p => pyLineIssues name p.1 p.2).filter
      (fun i => decide (i.issue_type = IssueType.syntax_error)) = [] := by
  induction l with
  | nil => rfl
  | cons p l ih =>
    rw [List.flatMap_cons, List.filter_append, ih, pyLineIssues_filter_synIssue]
    rfl

theorem secIssueFor_type (name : String) (lines : List (List Char)) (content : List Char)
    (p : SecPat) (i : CodeIssue) (h : secIssueFor name lines content p = some i) :
    i.issue_type = IssueType.security_vulnerability := by
  unfold secIssueFor at h
  by_cases hs : reSearch p.pat content = true
  · rw [if_pos hs] at h
    cases h
    rfl
  · rw [if_neg hs] at h
    cases h

theorem secPats_filter_synIssue (pats : List SecPat) (name : String)
    (lines : List (List Char)) (content : List Char) :
    (pats.filterMap (secIssueFor name lines content)).filter
      (fun i => decide (i.issue_type = IssueType.syntax_error)) = [] := by
  induction pats with
  | nil => rfl
  | cons p pats ih =>
    rcases h : secIssueFor name lines content p with - | i
    · simp only [List.filterMap_cons, h]
      exact ih
    · have hty := secIssueFor_type name lines content p i h
      simp only [List.filterMap_cons, h, List.filter_cons, hty]
      simpa using ih

/-- C4 amended: a Python file whose parse fails yields exactly one
syntax-error issue, critical, not fixable, at the reported failure line and
column (Python falsy defaults 1 and 0); the line-rule and whole-file
security detectors may still emit further issues for the same file. -/
theorem parse_failure_one_syntax_issue (name : String) (content : String) (e : SyntaxErr) :
    (scanPyContent name content (some e)).filter
        (fun i => decide (i.issue_type = IssueType.syntax_error)) = [syntaxIssue name e]
    ∧ (syntaxIssue name e).severity = Severity.critical
    ∧ (syntaxIssue name e).fixable = false
    ∧ (syntaxIssue name e).line = pyOr e.lineno 1
    ∧ (syntaxIssue name e).column = Int.ofNat (pyOr e.offset 0) := by
  refine ⟨?_, rfl, rfl, rfl, rfl⟩
  unfold scanPyContent pySecurityIssues
  rw [List.filter_append, List.filter_append]
  rw [pyLineBlock_filter_synIssue, secPats_filter_synIssue]
  simp [syntaxIssue]

/-- C4 counterexample: on the file content `eval(x` the parse fails
(CPython raises a SyntaxError at line 1, offset 5, reporting the unclosed
parenthesis), yet the scanner emits two issues — the syntax error plus a
security issue for the `eval\s*\(` pattern — while the claim demands
exactly one issue for the file. -/
theorem parse_failure_counterexample :
    (scanPyFile ⟨"bad.py", some "eval(x", some ⟨some 1, some 5, "( was never closed"⟩⟩).length = 2
    ∧ ((scanPyFile ⟨"bad.py", some "eval(x",
          some ⟨some 1, some 5, "( was never closed"⟩⟩).filter
        (fun i => decide (i.issue_type = IssueType.syntax_error))).length = 1 := by
  constructor
  · decide
  · decide

theorem string_append_cancel {s a b : String} (h : s ++ a = s ++ b) : a = b := by
  have hd := congrArg String.data h
  simp only [String.data_append] at hd
  exact String.ext (List.append_cancel_left hd)

/-- Predicate identifying the security issue emitted for the pattern whose
description is `d`: the issue type together with the message, which embeds
the description. -/
def secPred (d : String) (i : CodeIssue) : Bool :=
  decide (i.issue_type = IssueType.security_vulnerability)
    && decide (i.message = "Security: " ++ d)

theorem secIssueFor_eq (name : String) (lines : List (List Char)) (content : List Char)
    (q : SecPat) (i : CodeIssue) (h : secIssueFor name lines content q = some i) :
    reSearch q.pat content = true
    ∧ i = { file := name, line := findLineWithPattern lines q.pat, column := 0,
            severity := q.severity, issue_type := .security_vulnerability,
            message := "Security: " ++ q.desc,
            suggestion := some "Move to .env file", fixable := q.fixable } := by
  unfold secIssueFor at h
  by_cases hs : reSearch q.pat content = true
  · rw [if_pos hs] at h
    cases h
    exact ⟨hs, rfl⟩
  · rw [if_neg hs] at h
    cases h

theorem pyLineIssues_filter_secPred (name : String) (n : Nat) (line : List Char) (d : String) :
    (pyLineIssues name n line).filter (secPred d) = [] := by
  unfold pyLineIssues
  by_cases h1 : reSearch printRE line = true <;>
    by_cases h2 : acceptRE underscoreRE (pyStrip line) = true <;>
      simp [h1, h2, pyPrintIssue, pyUnusedIssue, secPred, List.filter_cons]

theorem pyLineBlock_filter_secPred (name : String) (l : List (Nat × List Char)) (d : String) :
    (l.flatMap fun p => pyLineIssues name p.1 p.2).filter (secPred d) = [] := by
  induction l with
  | nil => rfl
  | cons p l ih =>
    rw [List.flatMap_cons, List.filter_append, ih, pyLineIssues_filter_secPred]
    rfl

theorem parsePart_filter_secPred (name : String) (d : String) (pe : Option SyntaxErr) :
    ((match pe with
      | some e => [syntaxIssue name e]
      | none => []) : List CodeIssue).filter (secPred d) = [] := by
  cases pe with
  | none => rfl
  | some e => simp [syntaxIssue, secPred, List.filter_cons]

theorem secPats_filter_secPred_nil (pats : List SecPat) (name : String)
    (lines : List (List Char)) (content : List Char) (d : String)
    (h : ∀ q ∈ pats, ¬ q.desc = d) :
    (pats.filterMap (secIssueFor name lines content)).filter (secPred d) = [] := by
  induction pats with
  | nil => rfl
  | cons q pats ih =>
    have ihp := ih fun q' hq' => h q' (List.mem_cons_of_mem _ hq')
    rcases hq : secIssueFor name lines content q with - | i
    · simp only [List.filterMap_cons, hq]
      exact ihp
    · obtain ⟨-, rfl⟩ := secIssueFor_eq name lines content q i hq
      have hne : ¬("Security: " ++ q.desc = "Security: " ++ d) :=
        fun hEq => h q (List.Mem.head _) (string_append_cancel hEq)
      simp only [List.filterMap_cons, hq, List.filter_cons]
      rw [if_neg (by simp [secPred, hne])]
      exact ihp

theorem secPats_filter_secPred (pats : List SecPat) (name : String)
    (lines : List (List Char)) (content : List Char) (p : SecPat)
    (hmem : p ∈ pats)
    (hcount : pats.countP (fun q => decide (q.desc = p.desc)) = 1)
    (hsearch : reSearch p.pat content = true) :
    (pats.filterMap (secIssueFor name lines content)).filter (secPred p.desc)
      = [{ file := name, line := findLineWithPattern lines p.pat, column := 0,
           severity := p.severity, issue_type := .security_vulnerability,
           message := "Security: " ++ p.desc,
           suggestion := some "Move to .env file", fixable := p.fixable }] := by
  induction pats with
  | nil => cases hmem
  | cons q pats ih =>
    rw [List.countP_cons] at hcount
    by_cases hd : q.desc = p.desc
    · have hc0 : pats.countP (fun q' => decide (q'.desc = p.desc)) = 0 := by
        rw [if_pos (decide_eq_true hd)] at hcount
        omega
      have hqp : q = p := by
        rcases List.mem_cons.mp hmem with h | h
        · exact h.symm
        · exfalso
          have := List.countP_eq_zero.mp hc0 p h
          simp at this
      subst hqp
      have hsome : secIssueFor name lines content q
          = some { file := name, line := findLineWithPattern lines q.pat, column := 0,
                   severity := q.severity, issue_type := .security_vulnerability,
                   message := "Security: " ++ q.desc,
                   suggestion := some "Move to .env file", fixable := q.fixable } := by
        unfold secIssueFor
        rw [if_pos hsearch]
      rw [List.filterMap_cons, hsome]
      have hrest : (pats.filterMap (secIssueFor name lines content)).filter (secPred q.desc)
          = [] := by
        refine secPats_filter_secPred_nil pats name lines content q.desc fun q' hq' => ?_
        have := List.countP_eq_zero.mp hc0 q' hq'
        simpa using this
      simp only [List.filter_cons]
      simp [secPred, hrest]
    · have hmem' : p ∈ pats := by
        rcases List.mem_cons.mp hmem with h | h
        · exact absurd (by rw [h]) hd
        · exact h
      have hc1 : pats.countP (fun q' => decide (q'.desc = p.desc)) = 1 := by
        rw [if_neg (by simp [hd])] at hcount
        omega
      have ihp := ih hmem' hc1
      rcases hq : secIssueFor name lines content q with - | i
      · simp only [List.filterMap_cons, hq]
        exact ihp
      · obtain ⟨-, rfl⟩ := secIssueFor_eq name lines content q i hq
        have hne : ¬("Security: " ++ q.desc = "Security: " ++ p.desc) :=
          fun hEq => hd (string_append_cancel hEq)
        simp only [List.filterMap_cons, hq, List.filter_cons]
        simp [secPred, hne]
        exact ihp

/-- C5: for every Python file and every whole-file security pattern matching
the full content, exactly one security issue is emitted for that pattern —
the list of issues carrying its type and message is the singleton with the
pattern's severity and fixable flag, column 0, at the first line matching
the pattern in isolation (fallback line 1). -/
theorem security_pattern_issue (name : String) (content : String) (pe : Option SyntaxErr)
    (p : SecPat) (hmem : p ∈ securityPatterns)
    (hsearch : reSearch p.pat content.toList = true) :
    (scanPyContent name content pe).filter (secPred p.desc)
      = [{ file := name, line := findLineWithPattern (splitLines content.toList) p.pat,
           column := 0, severity := p.severity,
           issue_type := .security_vulnerability,
           message := "Security: " ++ p.desc,
           suggestion := some "Move to .env file", fixable := p.fixable }] := by
  have hcount : securityPatterns.countP (fun q => decide (q.desc = p.desc)) = 1 := by
    simp only [securityPatterns, List.mem_cons, List.not_mem_nil, or_false] at hmem
    rcases hmem with rfl | rfl | rfl | rfl | rfl | rfl | rfl | rfl <;> decide
  unfold scanPyContent pySecurityIssues
  rw [List.filter_append, List.filter_append]
  rw [pyLineBlock_filter_secPred, parsePart_filter_secPred,
    secPats_filter_secPred securityPatterns name (splitLines content.toList)
      content.toList p hmem hcount hsearch]
  rfl

/-- Witness for C5 at the spec scenario: a file with
`os.environ["SECRET"]` on line 3 yields exactly one high-severity, fixable
security issue for the environment-access pattern, at line 3, column 0. -/
theorem security_pattern_issue_witness :
    (scanPyContent "app.py" "x = 1\ny = 2\nos.environ[\"SECRET\"]" none).filter
        (secPred "Direct environment variable access")
      = [{ file := "app.py", line := 3, column := 0, severity := Severity.high,
           issue_type := IssueType.security_vulnerability,
           message := "Security: Direct environment variable access",
           suggestion := some "Move to .env file", fixable := true }] := by
  have h := security_pattern_issue "app.py" "x = 1\ny = 2\nos.environ[\"SECRET\"]" none
    ⟨envAccessRE, "Direct environment variable access", Severity.high, true⟩
    (by unfold securityPatterns; exact List.Mem.head _) (by decide)
  dsimp only at h
  rw [show findLineWithPattern
      (splitLines ("x = 1\ny = 2\nos.environ[\"SECRET\"]".toList)) envAccessRE = 3
    from by decide] at h
  exact h

theorem looseEq_search_iff (s : List Char) :
    reSearch looseEqRE s = true ↔
      ∃ a c d t, s = a ++ c :: '=' :: '=' :: d :: t
        ∧ ¬c = '=' ∧ ¬c = '!' ∧ ¬d = '=' := by
  constructor
  · intro h
    obtain ⟨a, t, rfl, hm⟩ := (reSearch_iff _ _).mp h
    obtain ⟨u, v, rfl, hu⟩ := (matchHere_iff _ _).mp hm
    unfold looseEqRE strLit at hu
    obtain ⟨u1, u2, rfl, h1, h2⟩ := (accept_cat _ _ _).mp hu
    obtain ⟨c, rfl, hc⟩ := (accept_cls _ _).mp h1
    rw [show "==".toList = ['=', '='] from rfl] at h2
    obtain ⟨v2, rfl, h3⟩ := (accept_litThen _ _ _).mp h2
    obtain ⟨d, rfl, hd⟩ := (accept_cls _ _).mp h3
    simp only [Bool.and_eq_true, Bool.not_eq_true', beq_eq_false_iff_ne, ne_eq] at hc hd
    exact ⟨a, c, d, v, by simp, hc.1, hc.2, hd⟩
  · rintro ⟨a, c, d, t, rfl, hc1, hc2, hd⟩
    apply (reSearch_iff _ _).mpr
    refine ⟨a, c :: '=' :: '=' :: d :: t, rfl, ?_⟩
    apply (matchHere_iff _ _).mpr
    refine ⟨[c, '=', '=', d], t, by simp, ?_⟩
    unfold looseEqRE strLit
    apply (accept_cat _ _ _).mpr
    refine ⟨[c], ['=', '=', d], rfl, ?_, ?_⟩
    · exact (accept_cls _ _).mpr ⟨c, rfl, by simp [hc1, hc2]⟩
    · apply (accept_litThen _ _ _).mpr
      rw [show "==".toList = ['=', '='] from rfl]
      exact ⟨[d], rfl, (accept_cls _ _).mpr ⟨d, rfl, by simp [hd]⟩⟩

theorem jsLineIssues_filter_medium (name : String) (n : Nat) (line : List Char) :
    (jsLineIssues name n line).filter (fun i => decide (i.severity = Severity.medium))
      = if reSearch looseEqRE line then [jsLooseEqIssue name n line] else [] := by
  unfold jsLineIssues
  by_cases h1 : reSearch looseEqRE line = true <;>
    by_cases h2 : searchWB varBodyRE none line = true <;>
      by_cases h3 : reSearch consoleRE line = true <;>
        simp [h1, h2, h3, jsLooseEqIssue, jsVarIssue, jsConsoleIssue,
          List.filter_cons, List.filter_append]

/-- C6 amended: the loose-equality rule fires on exactly the lines that
contain a two-character `==` with some preceding character other than
`=`/`!` and some following character other than `=` — one medium,
code-smell, fixable issue per such line; `!=` alone never fires, and a
line whose `==` occurrences all lack such context (as in `===`/`!==`)
gets no issue. -/
theorem loose_equality_rule (name : String) (n : Nat) (line : List Char) :
    ((∃ a c d t, line = a ++ c :: '=' :: '=' :: d :: t
        ∧ ¬c = '=' ∧ ¬c = '!' ∧ ¬d = '=') →
      (jsLineIssues name n line).filter (fun i => decide (i.severity = Severity.medium))
        = [jsLooseEqIssue name n line])
    ∧ ((¬ ∃ a c d t, line = a ++ c :: '=' :: '=' :: d :: t
        ∧ ¬c = '=' ∧ ¬c = '!' ∧ ¬d = '=') →
      (jsLineIssues name n line).filter (fun i => decide (i.severity = Severity.medium))
        = [])
    ∧ (jsLooseEqIssue name n line).severity = Severity.medium
    ∧ (jsLooseEqIssue name n line).issue_type = IssueType.code_smell
    ∧ (jsLooseEqIssue name n line).fixable = true
    ∧ (jsLooseEqIssue name n line).line = n := by
  refine ⟨?_, ?_, rfl, rfl, rfl, rfl⟩
  · intro h
    rw [jsLineIssues_filter_medium, if_pos ((looseEq_search_iff line).mpr h)]
  · intro h
    rw [jsLineIssues_filter_medium, if_neg (fun hs => h ((looseEq_search_iff line).mp hs))]

/-- C6 counterexample: a line containing the loose inequality `!=` — the
claim demands a medium code-smell issue for it, but the pattern
`[^=!]==[^=]` cannot match `!=`, and the detector emits no issue at all
for this file. -/
theorem loose_equality_counterexample :
    scanJsFile ⟨"a.js", some "if (a != b)"⟩ = [] := by decide

/-- Witness for C6: `if (a == b)` yields the medium issue, `if (a === b)`
yields none. -/
theorem loose_equality_rule_witness :
    (jsLineIssues "a.js" 5 ("if (a == b)".toList)).filter
        (fun i => decide (i.severity = Severity.medium))
      = [jsLooseEqIssue "a.js" 5 ("if (a == b)".toList)]
    ∧ (jsLineIssues "a.js" 5 ("if (a === b)".toList)).filter
        (fun i => decide (i.severity = Severity.medium)) = [] := by
  constructor
  · refine (loose_equality_rule "a.js" 5 _).1 ?_
    exact ⟨"if (a".toList, ' ', ' ', "b)".toList, by decide, by decide, by decide, by decide⟩
  · refine (loose_equality_rule "a.js" 5 _).2.1 ?_
    intro hex
    have hs := (looseEq_search_iff _).mpr hex
    rw [show reSearch looseEqRE ("if (a === b)".toList) = false from by decide] at hs
    cases hs

theorem underscore_accept_iff (s : List Char) :
    acceptRE underscoreRE s = true ↔
      ∃ a w, s = a ++ '_' :: w ∧ a.all isSpaceChar = true ∧ w.all isWordChar = true := by
  unfold underscoreRE
  constructor
  · intro h
    obtain ⟨u, v, rfl, hu, hv⟩ := (accept_cat _ _ _).mp h
    obtain ⟨v1, v2, rfl, hv1, hv2⟩ := (accept_cat _ _ _).mp hv
    obtain ⟨x, y, rfl, hx, hy⟩ := (accept_cat _ _ _).mp hv1
    rw [show chr '_' = RE.cls (fun d => d == '_') from rfl] at hx hy
    obtain ⟨c, rfl, hc⟩ := (accept_cls _ _).mp hx
    obtain rfl : c = '_' := by simpa using hc
    rw [accept_star_cls] at hu hy hv2
    have hyw : y.all isWordChar = true := by
      rw [List.all_eq_true] at hy ⊢
      intro d hdy
      obtain rfl : d = '_' := by simpa using hy d hdy
      decide
    refine ⟨u, y ++ v2, by simp, hu, ?_⟩
    rw [List.all_append, hyw, hv2]
    rfl
  · rintro ⟨a, w, rfl, ha, hw⟩
    apply (accept_cat _ _ _).mpr
    refine ⟨a, '_' :: w, rfl, ?_, ?_⟩
    · rw [accept_star_cls]
      exact ha
    · apply (accept_cat _ _ _).mpr
      refine ⟨['_'], w, rfl, ?_, ?_⟩
      · apply (accept_cat _ _ _).mpr
        refine ⟨['_'], [], by simp, ?_, ?_⟩
        · rw [show chr '_' = RE.cls (fun d => d == '_') from rfl]
          exact (accept_cls _ _).mpr ⟨'_', rfl, by decide⟩
        · rw [show chr '_' = RE.cls (fun d => d == '_') from rfl, accept_star_cls]
          rfl
      · rw [accept_star_cls]
        exact hw

theorem stripLeading_head (l : List Char) (c : Char) (w : List Char)
    (h : stripLeading l = c :: w) : isSpaceChar c = false := by
  induction l with
  | nil => cases h
  | cons d l ih =>
    by_cases hd : isSpaceChar d = true
    · rw [show stripLeading (d :: l) = stripLeading l from by simp [stripLeading, hd]] at h
      exact ih h
    · rw [show stripLeading (d :: l) = d :: l from by simp [stripLeading, hd]] at h
      cases h
      simpa using hd

theorem pyStrip_head (l : List Char) (c : Char) (w : List Char)
    (h : pyStrip l = c :: w) : isSpaceChar c = false := by
  unfold pyStrip at h
  exact stripLeading_head _ _ _ h

theorem pyLineIssues_filter_unused (name : String) (n : Nat) (line : List Char) :
    (pyLineIssues name n line).filter
        (fun i => decide (i.issue_type = IssueType.unused_code))
      = if acceptRE underscoreRE (pyStrip line) then [pyUnusedIssue name n] else [] := by
  unfold pyLineIssues
  by_cases h1 : reSearch printRE line = true <;>
    by_cases h2 : acceptRE underscoreRE (pyStrip line) = true <;>
      simp [h1, h2, pyPrintIssue, pyUnusedIssue, List.filter_cons, List.filter_append]

/-- C7 amended: the "unused variable" rule fires exactly on lines whose
stripped text is a bare underscore-led identifier — one or more underscores
followed only by word characters — with no assignment involved; an actual
assignment such as `_ = value` never fires it, and a bare `_tmp` line does. -/
theorem unused_variable_rule (name : String) (n : Nat) (line : List Char) :
    ((∀ w, ¬ (pyStrip line = '_' :: w ∧ w.all isWordChar = true)) →
      (pyLineIssues name n line).filter
        (fun i => decide (i.issue_type = IssueType.unused_code)) = [])
    ∧ (∀ w, pyStrip line = '_' :: w → w.all isWordChar = true →
      (pyLineIssues name n line).filter
        (fun i => decide (i.issue_type = IssueType.unused_code)) = [pyUnusedIssue name n])
    ∧ (pyUnusedIssue name n).severity = Severity.info
    ∧ (pyUnusedIssue name n).issue_type = IssueType.unused_code
    ∧ (pyUnusedIssue name n).fixable = true
    ∧ (pyUnusedIssue name n).line = n := by
  refine ⟨?_, ?_, rfl, rfl, rfl, rfl⟩
  · intro h
    rw [pyLineIssues_filter_unused, if_neg]
    intro hacc
    obtain ⟨a, w, heq, ha, hw⟩ := (underscore_accept_iff _).mp hacc
    cases a with
    | nil => exact h w ⟨by simpa using heq, hw⟩
    | cons c a =>
      have hc := pyStrip_head line c (a ++ '_' :: w) (by simpa using heq)
      simp only [List.all_cons, Bool.and_eq_true] at ha
      rw [ha.1] at hc
      cases hc
  · intro w hw hall
    rw [pyLineIssues_filter_unused,
      if_pos ((underscore_accept_iff _).mpr ⟨[], w, by simpa using hw, rfl, hall⟩)]

/-- C7 counterexample: the line `_ = 1` is an assignment whose target is the
underscore-only name `_`; the claim demands an info unused-code issue for
it, but the stripped line does not fully match `^\s*_+\w*$` (the space
after `_` is not a word character) and the scanner emits nothing at all
for the file. -/
theorem unused_variable_counterexample :
    scanPyFile ⟨"a.py", some "_ = 1", none⟩ = [] := by decide

/-- Witness for C7: the bare line `  _tmp` (not an assignment) fires the
rule; the line `x = 1` does not. -/
theorem unused_variable_rule_witness :
    (pyLineIssues "a.py" 1 ("  _tmp".toList)).filter
        (fun i => decide (i.issue_type = IssueType.unused_code)) = [pyUnusedIssue "a.py" 1]
    ∧ (pyLineIssues "a.py" 1 ("x = 1".toList)).filter
        (fun i => decide (i.issue_type = IssueType.unused_code)) = [] := by
  constructor
  · exact (unused_variable_rule "a.py" 1 _).2.1 "tmp".toList (by decide) (by decide)
  · refine (unused_variable_rule "a.py" 1 _).1 ?_
    rintro w ⟨h1, -⟩
    have h0 := congrArg List.head? h1
    rw [show (pyStrip ("x = 1".toList)).head? = some 'x' from by decide,
      List.head?_cons] at h0
    exact absurd h0 (by decide)

theorem pyLineIssues_column_nonneg (name : String) (n : Nat) (line : List Char)
    (i : CodeIssue) (h : i ∈ pyLineIssues name n line) : 0 ≤ i.column := by
  unfold pyLineIssues at h
  rw [List.mem_append] at h
  rcases h with h | h
  · by_cases hs : reSearch printRE line = true
    · rw [if_pos hs] at h
      rw [List.mem_singleton] at h
      subst h
      show 0 ≤ findSub "print".toList line
      exact occurs_findSub_nonneg _ _ (search_litThen_occurs "print".toList _ line hs)
    · rw [if_neg hs] at h
      cases h
  · by_cases hs : acceptRE underscoreRE (pyStrip line) = true
    · rw [if_pos hs] at h
      rw [List.mem_singleton] at h
      subst h
      exact Int.le_refl 0
    · rw [if_neg hs] at h
      cases h

theorem scanPyContent_column_nonneg (name : String) (content : String)
    (pe : Option SyntaxErr) (i : CodeIssue) (h : i ∈ scanPyContent name content pe) :
    0 ≤ i.column := by
  unfold scanPyContent at h
  rw [List.mem_append, List.mem_append] at h
  rcases h with (h | h) | h
  · rw [List.mem_flatMap] at h
    obtain ⟨p, -, hp⟩ := h
    exact pyLineIssues_column_nonneg _ _ _ _ hp
  · cases pe with
    | none => cases h
    | some e =>
      rw [List.mem_singleton] at h
      subst h
      show 0 ≤ Int.ofNat (pyOr e.offset 0)
      exact Int.ofNat_nonneg _
  · rw [pySecurityIssues, List.mem_filterMap] at h
    obtain ⟨p, -, hp⟩ := h
    obtain ⟨-, rfl⟩ := secIssueFor_eq _ _ _ _ _ hp
    exact Int.le_refl 0

theorem jsLineIssues_column_nonneg (name : String) (n : Nat) (line : List Char)
    (i : CodeIssue) (h : i ∈ jsLineIssues name n line) : 0 ≤ i.column := by
  unfold jsLineIssues at h
  rw [List.mem_append, List.mem_append] at h
  rcases h with (h | h) | h
  · by_cases hs : reSearch looseEqRE line = true
    · rw [if_pos hs] at h
      rw [List.mem_singleton] at h
      subst h
      show 0 ≤ findSub "==".toList line
      exact occurs_findSub_nonneg _ _ (search_cls_litThen_occurs _ "==".toList _ line hs)
    · rw [if_neg hs] at h
      cases h
  · by_cases hs : searchWB varBodyRE none line = true
    · rw [if_pos hs] at h
      rw [List.mem_singleton] at h
      subst h
      show 0 ≤ findSub "var".toList line
      exact occurs_findSub_nonneg _ _ (searchWB_litThen_occurs "var".toList _ none line hs)
    · rw [if_neg hs] at h
      cases h
  · by_cases hs : reSearch consoleRE line = true
    · rw [if_pos hs] at h
      rw [List.mem_singleton] at h
      subst h
      show 0 ≤ findSub "console".toList line
      apply occurs_findSub_nonneg
      obtain ⟨a, t, ht⟩ := search_litThen_occurs "console.".toList _ line hs
      refine ⟨a, '.' :: t, ?_⟩
      rw [ht, show ("console.".toList : List Char) = "console".toList ++ ['.'] from rfl]
      simp
    · rw [if_neg hs] at h
      cases h

/-- C10: every issue emitted by the Python or JavaScript pattern detectors
has column ≥ 0: each column computed via `str.find` is guarded by a regex
match that guarantees the searched-for literal is present in the line, so
the `-1` sentinel is never stored; all other pattern-detector columns are
the constant 0 or the non-negative parser offset. -/
theorem pattern_detector_columns_nonneg (pyFiles : List PyFile) (jsFiles : List JsFile)
    (i : CodeIssue) (h : i ∈ scanPython pyFiles ++ scanJavascript jsFiles) :
    0 ≤ i.column := by
  rw [List.mem_append] at h
  rcases h with h | h
  · rw [scanPython, List.mem_flatMap] at h
    obtain ⟨f, -, hf⟩ := h
    obtain ⟨nm, co, pe⟩ := f
    unfold scanPyFile at hf
    cases co with
    | none => cases hf
    | some c => exact scanPyContent_column_nonneg _ _ _ _ hf
  · rw [scanJavascript, List.mem_flatMap] at h
    obtain ⟨f, -, hf⟩ := h
    obtain ⟨nm, co⟩ := f
    unfold scanJsFile at hf
    cases co with
    | none => cases hf
    | some c =>
      rw [List.mem_flatMap] at hf
      obtain ⟨p, -, hp⟩ := hf
      exact jsLineIssues_column_nonneg _ _ _ _ hp

/-- Witness for C10: a concrete debug-print issue, whose column came from
`str.find`, is non-negative. -/
theorem pattern_detector_columns_nonneg_witness :
    0 ≤ (pyPrintIssue "a.py" 1 ("print(1)".toList)).column :=
  pattern_detector_columns_nonneg [⟨"a.py", some "print(1)", none⟩] [] _ (by decide)
